import Mathlib

/-!
Verification of the nonce-sequencing and transaction-confirmation design of
the go-eth-demo repository.

The repository's demo code (task01/task02) drives a chain RPC client through
a straight-line flow: resolve configuration from the environment, dial the
endpoint, query block/balance/pending-nonce/gas-price/chain-id, build and
sign one transaction, submit it, and poll for its receipt.  The specification
additionally documents a reusable Transaction Sequencer (AllocateNonce,
AllocateBatch, Submit with ResetFromChain, AwaitConfirmation) whose
standalone implementation is not part of the source tree; those operations
are modelled here from the spec's own operational descriptions, while the
task01/task02 flows are embedded directly from the Go source.
-/

namespace GoEthDemo

/-! ## Sequencer data model (spec §3) -/

/-- Chain account identifier. -/
abbrev Addr := Nat

/-- Account Nonce State: `confirmedNonce` is the pending-nonce value fetched
from the chain, `nextNonce` the next nonce to hand out. -/
structure AccountState where
  confirmedNonce : Nat
  nextNonce : Nat
deriving DecidableEq

/-- Sequencer state: lazily created per-address account state; `none` means
no local state exists for the address (uninitialized or invalidated). -/
abbrev SeqState := Addr → Option AccountState

/-- The state in which no address has local nonce state yet. -/
def initState : SeqState := fun _ => none

/-- Point update of the per-address table. -/
def updState (s : SeqState) (a : Addr) (v : Option AccountState) : SeqState :=
  fun b => if b = a then v else s b

/-- Modelled from the spec: `AllocateNonce(address)` (spec §4.1); the
sequencer's standalone implementation is absent from the source tree.  If no
local state exists for the address, fetch the chain's pending-nonce view and
set `nextNonce := confirmedNonce`; return `nextNonce`, then increment it.
The chain is the function `chain`; the third component counts how many chain
nonce queries the call performed. -/
def AllocateNonce (chain : Addr → Nat) (s : SeqState) (a : Addr) :
    Nat × SeqState × Nat :=
  match s a with
  | none =>
      let c := chain a
      (c, updState s a (some ⟨c, c + 1⟩), 1)
  | some st =>
      (st.nextNonce, updState s a (some ⟨st.confirmedNonce, st.nextNonce + 1⟩), 0)

/-- Modelled from the spec: `AllocateBatch(address, count)` (spec §4.1), the
single allocation path handing out `count` contiguous nonces; at most the
first allocation consults the chain, the rest reuse the cached counter.
Returns the ordered nonce list, the new state, and the number of chain nonce
queries performed. -/
def AllocateBatch (chain : Addr → Nat) (s : SeqState) (a : Addr) :
    Nat → List Nat × SeqState × Nat
  | 0 => ([], s, 0)
  | n + 1 =>
      let r₁ := AllocateNonce chain s a
      let r₂ := AllocateBatch chain r₁.2.1 a n
      (r₁.1 :: r₂.1, r₂.2.1, r₁.2.2 + r₂.2.2)

/-- Modelled from the spec: `ResetFromChain` invalidates the cached nonce
state for an address, so the next allocation re-derives it from the chain. -/
def ResetFromChain (s : SeqState) (a : Addr) : SeqState :=
  updState s a none

/-! ## Pending transaction records and submission (spec §3, §4.1) -/

/-- Status of a pending transaction record. -/
inductive TxStatus where
  | Built
  | Signed
  | Submitted
  | Confirmed
  | Failed
deriving DecidableEq

/-- Pending Transaction Record (spec §3), with the fields the claims are
about. -/
structure TxRecord where
  nonce : Nat
  hash : Nat
  status : TxStatus
deriving DecidableEq

/-- Replace the status field of a record. -/
def setStatus (r : TxRecord) (st : TxStatus) : TxRecord :=
  ⟨r.nonce, r.hash, st⟩

/-- Result of submitting a signed payload to the node. -/
inductive SubmitOutcome where
  | accepted (hash : Nat)
  | rejectedSub
deriving DecidableEq

/-- Modelled from the spec: `Submit(record)` (spec §4.1); absent from the
source tree as a standalone operation.  On node acceptance the record
becomes `Submitted`; on `SubmissionRejected` the sequencer MUST invalidate
its local `nextNonce` via `ResetFromChain`. -/
def Submit (nodeAccepts : Bool) (h : Nat) (s : SeqState) (a : Addr)
    (rec : TxRecord) : SubmitOutcome × SeqState × TxRecord :=
  if nodeAccepts then
    (SubmitOutcome.accepted h, s, setStatus rec TxStatus.Submitted)
  else
    (SubmitOutcome.rejectedSub, ResetFromChain s a, rec)

/-! ## Confirmation polling (spec §4.1 `AwaitConfirmation`) -/

/-- Receipt: chain-provided record of a transaction's inclusion outcome.
`status = 1` means execution success, any other value execution failure. -/
structure Receipt where
  blockNumber : Nat
  gasUsed : Nat
  status : Nat
deriving DecidableEq

/-- One response of the chain to a `GetReceipt` poll. -/
inductive ReceiptResp where
  | found (r : Receipt)
  | notFound
  | queryError
deriving DecidableEq

/-- Outcome of `AwaitConfirmation`. -/
inductive AwaitOutcome where
  | confirmedRct (blockNumber gasUsed statusCode : Nat)
  | executionReverted
  | confirmationTimeout
  | chainQueryError
deriving DecidableEq

/-- A chain operation issued during confirmation polling; the record of
issued operations lets us state that polling only ever reads receipts. -/
inductive PollOp where
  | receiptQuery (hash : Nat)
  | resubmit (hash : Nat)
deriving DecidableEq

/-- Modelled from the spec: `AwaitConfirmation(hash, pollInterval, timeout)`
(spec §4.1); absent from the source tree as a standalone operation (task02
delegates to the library's `bind.WaitMined`).  The poll loop is driven by
the finite list of chain responses observed before the caller's deadline or
cancellation cuts the loop off; an exhausted list is the timeout/cancel
case.  Returns the outcome, the (possibly transitioned) record, and the
list of chain operations the loop issued. -/
def AwaitConfirmation (rec : TxRecord) :
    List ReceiptResp → AwaitOutcome × TxRecord × List PollOp
  | [] => (AwaitOutcome.confirmationTimeout, rec, [])
  | resp :: rest =>
      match resp with
      | ReceiptResp.found r =>
          if r.status = 1 then
            (AwaitOutcome.confirmedRct r.blockNumber r.gasUsed r.status,
             setStatus rec TxStatus.Confirmed, [PollOp.receiptQuery rec.hash])
          else
            (AwaitOutcome.executionReverted,
             setStatus rec TxStatus.Failed, [PollOp.receiptQuery rec.hash])
      | ReceiptResp.notFound =>
          let k := AwaitConfirmation rec rest
          (k.1, k.2.1, PollOp.receiptQuery rec.hash :: k.2.2)
      | ReceiptResp.queryError =>
          (AwaitOutcome.chainQueryError, rec, [PollOp.receiptQuery rec.hash])

/-! ## Reachable sequencer states (spec §4.1, §5) -/

/-- One sequencer operation that touches the per-address nonce table; the
chain's pending-nonce view at the moment of the operation is part of the
operation, so different operations may observe different chain states. -/
inductive SeqOp where
  | allocate (chain : Addr → Nat) (a : Addr)
  | allocateBatch (chain : Addr → Nat) (a : Addr) (count : Nat)
  | submit (nodeAccepts : Bool) (h : Nat) (a : Addr) (rec : TxRecord)
  | reset (a : Addr)

/-- Effect of a sequencer operation on the nonce table. -/
def applyOp (s : SeqState) : SeqOp → SeqState
  | SeqOp.allocate chain a => (AllocateNonce chain s a).2.1
  | SeqOp.allocateBatch chain a count => (AllocateBatch chain s a count).2.1
  | SeqOp.submit ok h a rec => (Submit ok h s a rec).2.1
  | SeqOp.reset a => ResetFromChain s a

/-- States reachable from the empty table by sequencer operations. -/
inductive Reachable : SeqState → Prop where
  | init : Reachable initState
  | step (s : SeqState) (op : SeqOp) : Reachable s → Reachable (applyOp s op)

/-- The spec §3 invariant: for every tracked address,
`nextNonce >= confirmedNonce`. -/
def NonceInvariant (s : SeqState) : Prop :=
  ∀ a st, s a = some st → st.confirmedNonce ≤ st.nextNonce

/-! ## Sequences of batches (spec §8, first property) -/

/-- Run a sequence of `AllocateBatch` calls for one address; each call may
observe a different chain pending-nonce view.  Returns the concatenation of
the returned nonce lists, the final state, and the total number of chain
nonce queries. -/
def seqBatches (a : Addr) :
    List ((Addr → Nat) × Nat) → SeqState → List Nat × SeqState × Nat
  | [], s => ([], s, 0)
  | (chain, k) :: rest, s =>
      let r₁ := AllocateBatch chain s a k
      let r₂ := seqBatches a rest r₁.2.1
      (r₁.1 ++ r₂.1, r₂.2.1, r₁.2.2 + r₂.2.2)

/-- Modelled from the spec (§5): under the per-account mutual-exclusion
discipline, a concurrent execution of two `AllocateNonce(a)` calls is
observationally one of the two sequential serializations; the scheduler's
choice of which caller enters the critical section first is `firstIsA`.
Each caller may observe its own chain view.  Returns the pair of nonces
handed to caller A and caller B. -/
def serializedPair (chainA chainB : Addr → Nat) (s : SeqState) (a : Addr)
    (firstIsA : Bool) : Nat × Nat :=
  if firstIsA then
    let r₁ := AllocateNonce chainA s a
    let r₂ := AllocateNonce chainB r₁.2.1 a
    (r₁.1, r₂.1)
  else
    let r₁ := AllocateNonce chainB s a
    let r₂ := AllocateNonce chainA r₁.2.1 a
    (r₂.1, r₁.1)

/-! ## Embedding of the task01 and task02 flows (from the Go source)

`os.Getenv` returns the empty string both for an unset and for an
empty-valued variable, so the environment is modelled as plain strings with
`""` meaning unset.  `log.Fatal` terminates the process, so a flow is a
function returning the list of network calls it issued before terminating
together with its result. -/

/-- Environment variables consulted by the two flows. -/
structure Env where
  sepoliaRPC : String
  rpcURL : String
  privateKey : String
  recipientAddr : String
  contractAddr : String
deriving DecidableEq

/-- The hardcoded default Sepolia endpoint used by both flows when the
RPC environment variable is empty. -/
def defaultRPC : String :=
  "https://eth-sepolia.g.alchemy.com/v2/5kxZJaABVsl6R8LWJEcDvkapc6nwG8ik"

/-- Configuration of the transfer flow (task01) after env resolution. -/
structure Task01Config where
  rpcStr : String
  privateKey : String
  recipientAddr : String
deriving DecidableEq

/-- task01's env-resolution prologue: `SEPOLIA_RPC` falls back to the
default endpoint, while empty `PRIVATE_KEY` or `RECIPIENT_ADDR` is a
`log.Fatal` before any network connection. -/
def resolveTask01Config (e : Env) : Except String Task01Config :=
  let rpc := if e.sepoliaRPC = "" then defaultRPC else e.sepoliaRPC
  if e.privateKey = "" then
    Except.error "PRIVATE_KEY environment variable is required"
  else if e.recipientAddr = "" then
    Except.error "RECIPIENT_ADDR environment variable is required"
  else
    Except.ok ⟨rpc, e.privateKey, e.recipientAddr⟩

/-- Configuration of the contract flow (task02) after env resolution. -/
structure Task02Config where
  rpcStr : String
  privateKey : String
  recipientAddr : String
  contractAddr : String
deriving DecidableEq

/-- task02's env-resolution prologue: `RPC_URL` falls back to the default
endpoint, while empty `PRIVATE_KEY`, `RECIPIENT_ADDR` or `CONTRACT_ADDR` is
a `log.Fatal` before any network connection. -/
def resolveTask02Config (e : Env) : Except String Task02Config :=
  let rpc := if e.rpcURL = "" then defaultRPC else e.rpcURL
  if e.privateKey = "" then
    Except.error "PRIVATE_KEY environment variable is required"
  else if e.recipientAddr = "" then
    Except.error "RECIPIENT_ADDR environment variable is required"
  else if e.contractAddr = "" then
    Except.error "CONTRACT_ADDR environment variable is required"
  else
    Except.ok ⟨rpc, e.privateKey, e.recipientAddr, e.contractAddr⟩

/-- The node as seen by one run: the answers it gives to the flow's
queries.  The signing key derived from the hex private key is modelled as
the string itself (key parsing is the external crypto collaborator). -/
structure Oracle where
  latestBlockNum : Nat
  balance : Nat
  pendingNonce : Nat
  gasPrice : Nat
  chainID : Nat
  waitMined : Except String Receipt
  countBefore : Nat
  countAfter : Nat

/-- A signed transaction payload; `chainID` records the chain id the signer
was invoked with (EIP-155 replay binding). -/
structure SignedTx where
  nonce : Nat
  toStr : String
  value : Nat
  gasLimit : Nat
  gasPrice : Nat
  chainID : Nat
  signerKey : String
deriving DecidableEq

/-- A network call issued by a flow, in program order. -/
inductive RpcCall where
  | dial (url : String)
  | getBlock (number : Option Nat)
  | getBalance
  | pendingNonceQuery
  | suggestGasPrice
  | networkID
  | sendTx (tx : SignedTx)
  | contractGetCount
  | getReceipt
deriving DecidableEq

/-- The wei amount transferred by task01 (`big.NewInt(1e15)`). -/
def transferValue : Nat := 1000000000000000

/-- The gas limit used by task01 (`uint64(21000)`). -/
def transferGasLimit : Nat := 21000

/-- The transaction task01 builds from the single fetched pending nonce and
signs with an EIP-155 signer bound to the queried network id. -/
def task01Tx (cfg : Task01Config) (o : Oracle) : SignedTx :=
  ⟨o.pendingNonce, cfg.recipientAddr, transferValue, transferGasLimit,
   o.gasPrice, o.chainID, cfg.privateKey⟩

/-- The network calls task01 issues before the balance check, in program
order: dial, latest block, block 5671744, balance, pending nonce, gas
price. -/
def task01Prefix (cfg : Task01Config) : List RpcCall :=
  [RpcCall.dial cfg.rpcStr, RpcCall.getBlock none,
   RpcCall.getBlock (some 5671744), RpcCall.getBalance,
   RpcCall.pendingNonceQuery, RpcCall.suggestGasPrice]

/-- Embedding of `task01` (the transfer flow): dial, query latest block and
block 5671744, balance, pending nonce, gas price; abort if the balance
cannot cover value plus gas; otherwise build the transaction with the single
fetched nonce, query the network id, sign with an EIP-155 signer bound to
that chain id, and send.  Returns the network calls issued and the signed
transaction if one was sent. -/
def task01Run (e : Env) (o : Oracle) : List RpcCall × Option SignedTx :=
  match resolveTask01Config e with
  | Except.error _ => ([], none)
  | Except.ok cfg =>
      if o.balance < transferValue + o.gasPrice * transferGasLimit then
        (task01Prefix cfg, none)
      else
        (task01Prefix cfg ++
           [RpcCall.networkID, RpcCall.sendTx (task01Tx cfg o)],
         some (task01Tx cfg o))

/-- Terminal outcome of the task02 flow, from the receipt handling at
task02.go lines 90-100: an error from `bind.WaitMined` is one fatal path, a
receipt with status other than 1 is a distinct fatal path, and a status-1
receipt reports the block number and gas used. -/
inductive Task02Outcome where
  | configError (msg : String)
  | waitError (msg : String)
  | txFailed (status : Nat)
  | success (blockNumber gasUsed : Nat)
deriving DecidableEq

/-- The receipt classification of task02.go lines 90-100 in isolation. -/
def classifyWaitMined (w : Except String Receipt) : Task02Outcome :=
  match w with
  | Except.error m => Task02Outcome.waitError m
  | Except.ok r =>
      if r.status = 1 then Task02Outcome.success r.blockNumber r.gasUsed
      else Task02Outcome.txFailed r.status

/-- The `Increment` transaction task02 sends through the transactor bound
to the queried network id (the library fills in the node's pending nonce
for the account). -/
def task02Tx (cfg : Task02Config) (o : Oracle) : SignedTx :=
  ⟨o.pendingNonce, cfg.contractAddr, 0, 0, o.gasPrice, o.chainID,
   cfg.privateKey⟩

/-- The network calls task02 issues up to and including the receipt wait,
in program order. -/
def task02Prefix (cfg : Task02Config) (o : Oracle) : List RpcCall :=
  [RpcCall.dial cfg.rpcStr, RpcCall.networkID, RpcCall.contractGetCount,
   RpcCall.sendTx (task02Tx cfg o), RpcCall.getReceipt]

/-- Embedding of `task02` (the contract flow): dial, query the network id,
create a transactor bound to that chain id, read the counter, send the
`Increment` transaction through the bound transactor, wait for the receipt,
and classify it; the post-confirmation counter read happens only on the
success path.  Returns the network calls issued, the submitted transaction
if the flow got that far, and the outcome. -/
def task02Run (e : Env) (o : Oracle) :
    List RpcCall × Option SignedTx × Task02Outcome :=
  match resolveTask02Config e with
  | Except.error m => ([], none, Task02Outcome.configError m)
  | Except.ok cfg =>
      match classifyWaitMined o.waitMined with
      | Task02Outcome.success bn gu =>
          (task02Prefix cfg o ++ [RpcCall.contractGetCount],
           some (task02Tx cfg o), Task02Outcome.success bn gu)
      | out => (task02Prefix cfg o, some (task02Tx cfg o), out)

/-- Total number of nonces requested by a sequence of batch calls. -/
def totalCount (bs : List ((Addr → Nat) × Nat)) : Nat :=
  (bs.map Prod.snd).sum

/-- Whether a network call is a chain pending-nonce query. -/
def isNonceQuery : RpcCall → Bool
  | RpcCall.pendingNonceQuery => true
  | _ => false

/-- Whether a network call submits a transaction. -/
def isSendCall : RpcCall → Bool
  | RpcCall.sendTx _ => true
  | _ => false

/-! ## Helper lemmas about the sequencer model -/

theorem updState_self (s : SeqState) (a : Addr) (v : Option AccountState) :
    updState s a v a = v := by
  simp [updState]

theorem updState_ne (s : SeqState) (a b : Addr) (v : Option AccountState)
    (h : b ≠ a) : updState s a v b = s b := by
  simp [updState, h]

theorem updState_updState (s : SeqState) (a : Addr)
    (v w : Option AccountState) :
    updState (updState s a v) a w = updState s a w := by
  funext b
  by_cases hb : b = a <;> simp [updState, hb]

theorem updState_eq_self (s : SeqState) (a : Addr) (v : Option AccountState)
    (h : s a = v) : updState s a v = s := by
  funext b
  by_cases hb : b = a <;> simp [updState, hb, h]

theorem alloc_cold (chain : Addr → Nat) (s : SeqState) (a : Addr)
    (h : s a = none) :
    AllocateNonce chain s a =
      (chain a, updState s a (some ⟨chain a, chain a + 1⟩), 1) := by
  simp [AllocateNonce, h]

theorem alloc_warm (chain : Addr → Nat) (s : SeqState) (a : Addr)
    (cn m : Nat) (h : s a = some ⟨cn, m⟩) :
    AllocateNonce chain s a = (m, updState s a (some ⟨cn, m + 1⟩), 0) := by
  simp [AllocateNonce, h]

/-- A warm batch of `n` allocations returns the contiguous block
`[m, m+1, …, m+n-1]`, advances the counter by `n`, and performs no chain
query. -/
theorem batch_warm (chain : Addr → Nat) (a : Addr) (cn : Nat) :
    ∀ (n : Nat) (s : SeqState) (m : Nat), s a = some ⟨cn, m⟩ →
      AllocateBatch chain s a n =
        (List.range' m n, updState s a (some ⟨cn, m + n⟩), 0) := by
  intro n
  induction n with
  | zero =>
      intro s m h
      simp [AllocateBatch, updState_eq_self s a _ h]
  | succ k ih =>
      intro s m h
      have h₁ : updState s a (some ⟨cn, m + 1⟩) a = some ⟨cn, m + 1⟩ :=
        updState_self ..
      have hrec := ih (updState s a (some ⟨cn, m + 1⟩)) (m + 1) h₁
      simp only [AllocateBatch, alloc_warm chain s a cn m h, hrec,
        updState_updState, List.range'_succ m k 1]
      have hm : m + 1 + k = m + (k + 1) := by omega
      rw [hm]

/-- A cold batch of `n + 1` allocations performs exactly one chain query
and returns the contiguous block starting at the fetched pending nonce. -/
theorem batch_cold (chain : Addr → Nat) (a : Addr) (n : Nat) (s : SeqState)
    (h : s a = none) :
    AllocateBatch chain s a (n + 1) =
      (List.range' (chain a) (n + 1),
       updState s a (some ⟨chain a, chain a + (n + 1)⟩), 1) := by
  have h₁ : updState s a (some ⟨chain a, chain a + 1⟩) a =
      some ⟨chain a, chain a + 1⟩ := updState_self ..
  have hrec := batch_warm chain a (chain a) n
    (updState s a (some ⟨chain a, chain a + 1⟩)) (chain a + 1) h₁
  simp only [AllocateBatch, alloc_cold chain s a h, hrec, updState_updState,
    List.range'_succ (chain a) n 1]
  have hm : chain a + 1 + n = chain a + (n + 1) := by omega
  rw [hm]

theorem alloc_state_cold (chain : Addr → Nat) (s : SeqState) (a : Addr)
    (h : s a = none) :
    (AllocateNonce chain s a).2.1 =
      updState s a (some ⟨chain a, chain a + 1⟩) := by
  rw [alloc_cold chain s a h]

theorem alloc_state_warm (chain : Addr → Nat) (s : SeqState) (a : Addr)
    (cn m : Nat) (h : s a = some ⟨cn, m⟩) :
    (AllocateNonce chain s a).2.1 = updState s a (some ⟨cn, m + 1⟩) := by
  rw [alloc_warm chain s a cn m h]

/-- The allocation following any allocation for the same address returns
the successor nonce, whatever chain views the two calls observe. -/
theorem alloc_succ (chain chain' : Addr → Nat) (s : SeqState) (a : Addr) :
    (AllocateNonce chain' (AllocateNonce chain s a).2.1 a).1 =
      (AllocateNonce chain s a).1 + 1 := by
  cases h : s a with
  | none => simp [AllocateNonce, h, updState]
  | some st => simp [AllocateNonce, h, updState]

/-- A warm sequence of batches returns one contiguous block and never
queries the chain. -/
theorem seqBatches_warm (a : Addr) (cn : Nat) :
    ∀ (bs : List ((Addr → Nat) × Nat)) (s : SeqState) (m : Nat),
      s a = some ⟨cn, m⟩ →
      seqBatches a bs s =
        (List.range' m (totalCount bs),
         updState s a (some ⟨cn, m + totalCount bs⟩), 0) := by
  intro bs
  induction bs with
  | nil =>
      intro s m h
      simp [seqBatches, totalCount, updState_eq_self s a _ h]
  | cons hd rest ih =>
      intro s m h
      obtain ⟨chain, k⟩ := hd
      have hb := batch_warm chain a cn k s m h
      have h₁ : updState s a (some ⟨cn, m + k⟩) a = some ⟨cn, m + k⟩ :=
        updState_self ..
      have hrec := ih (updState s a (some ⟨cn, m + k⟩)) (m + k) h₁
      have happ := List.range'_append m k (totalCount rest) 1
      simp only [one_mul, totalCount] at happ
      simp only [seqBatches, hb, hrec, updState_updState, totalCount,
        List.map_cons, List.sum_cons, Prod.mk.injEq]
      refine ⟨?_, ?_, trivial⟩
      · rw [happ]
        have hc : (rest.map Prod.snd).sum + k = k + (rest.map Prod.snd).sum := by
          omega
        rw [hc]
      · have hc : m + k + (rest.map Prod.snd).sum =
            m + (k + (rest.map Prod.snd).sum) := by omega
        rw [hc]

/-- Polling through `t` not-found responses only adds receipt queries to
the trace and leaves the outcome and record of the remaining polling. -/
theorem await_replicate (rec : TxRecord) (t : Nat) (l : List ReceiptResp) :
    AwaitConfirmation rec (List.replicate t ReceiptResp.notFound ++ l) =
      ((AwaitConfirmation rec l).1, (AwaitConfirmation rec l).2.1,
       List.replicate t (PollOp.receiptQuery rec.hash) ++
         (AwaitConfirmation rec l).2.2) := by
  induction t with
  | zero => simp
  | succ k ih => simp [List.replicate_succ, AwaitConfirmation, ih]

/-- `AllocateNonce` preserves the nonce invariant. -/
theorem inv_alloc (chain : Addr → Nat) (s : SeqState) (a : Addr)
    (hs : NonceInvariant s) :
    NonceInvariant (AllocateNonce chain s a).2.1 := by
  cases h : s a with
  | none =>
      intro b st hb
      rw [alloc_state_cold chain s a h] at hb
      by_cases hba : b = a
      · subst hba
        rw [updState_self] at hb
        cases hb
        exact Nat.le_succ (chain b)
      · rw [updState_ne s a b _ hba] at hb
        exact hs b st hb
  | some st₀ =>
      intro b st hb
      obtain ⟨cn, m⟩ := st₀
      rw [alloc_state_warm chain s a cn m h] at hb
      by_cases hba : b = a
      · subst hba
        rw [updState_self] at hb
        cases hb
        exact Nat.le_succ_of_le (hs b ⟨cn, m⟩ h)
      · rw [updState_ne s a b _ hba] at hb
        exact hs b st hb

/-- `AllocateBatch` preserves the nonce invariant. -/
theorem inv_batch (chain : Addr → Nat) (a : Addr) :
    ∀ (n : Nat) (s : SeqState), NonceInvariant s →
      NonceInvariant (AllocateBatch chain s a n).2.1 := by
  intro n
  induction n with
  | zero => intro s hs; exact hs
  | succ k ih =>
      intro s hs
      exact ih (AllocateNonce chain s a).2.1 (inv_alloc chain s a hs)

/-- `ResetFromChain` preserves the nonce invariant. -/
theorem inv_reset (s : SeqState) (a : Addr) (hs : NonceInvariant s) :
    NonceInvariant (ResetFromChain s a) := by
  intro b st hb
  by_cases hba : b = a
  · subst hba
    rw [ResetFromChain, updState_self] at hb
    cases hb
  · rw [ResetFromChain, updState_ne s a b _ hba] at hb
    exact hs b st hb

/-- `Submit` preserves the nonce invariant on both outcomes. -/
theorem inv_submit (ok : Bool) (h : Nat) (s : SeqState) (a : Addr)
    (rec : TxRecord) (hs : NonceInvariant s) :
    NonceInvariant (Submit ok h s a rec).2.1 := by
  cases ok with
  | true => simpa [Submit] using hs
  | false => simpa [Submit] using inv_reset s a hs

/-! ## Claim theorems -/

/-- Claim C1: `AllocateBatch(address, count)` with positive `count` on an
address with no cached state performs exactly one chain pending-nonce query
— never `count` queries — and returns the ordered contiguous block of
`count` nonces starting at the fetched value; and in the code, a task01
transfer run whose configuration resolves issues exactly one pending-nonce
query and builds its transaction with that single fetched value. -/
theorem allocateBatch_single_query (chain : Addr → Nat) (s : SeqState)
    (a : Addr) (n : Nat) (hcold : s a = none) (hpos : 0 < n) :
    ((AllocateBatch chain s a n).2.2 = 1 ∧
     (AllocateBatch chain s a n).1 = List.range' (chain a) n) ∧
    (∀ (e : Env) (o : Oracle) (cfg : Task01Config),
      resolveTask01Config e = Except.ok cfg →
      ((task01Run e o).1.filter isNonceQuery = [RpcCall.pendingNonceQuery] ∧
       ∀ tx, (task01Run e o).2 = some tx → tx.nonce = o.pendingNonce)) := by
  obtain ⟨j, rfl⟩ : ∃ j, n = j + 1 := ⟨n - 1, by omega⟩
  refine ⟨?_, ?_⟩
  · rw [batch_cold chain a j s hcold]
    exact ⟨rfl, rfl⟩
  · intro e o cfg hcfg
    constructor
    · simp only [task01Run, hcfg]
      split <;> simp [task01Prefix, isNonceQuery, List.filter]
    · intro tx htx
      simp only [task01Run, hcfg] at htx
      split at htx
      · simp at htx
      · simp only [Option.some.injEq] at htx
        subst htx
        rfl

/-- Witness for C1: a cold batch of three allocations at pending nonce 5
performs one query and returns the block starting at 5. -/
theorem allocateBatch_single_query_witness :
    (AllocateBatch (fun _ => 5) initState 0 3).2.2 = 1 ∧
    (AllocateBatch (fun _ => 5) initState 0 3).1 = List.range' 5 3 :=
  (allocateBatch_single_query (fun _ => 5) initState 0 3 rfl (by decide)).1

/-- Claim C2: for a sequence of `AllocateBatch` calls for one address
without an intervening `ResetFromChain`, the returned nonces form exactly
the contiguous duplicate-free range starting at the first fetched pending
nonce, even if later calls would observe changed chain views; and each
`AllocateNonce` call returns the current `nextNonce` and increments it, so
the following call returns the successor and two sequential calls never
return the same value. -/
theorem batch_sequence_contiguous (a : Addr) (ch₁ : Addr → Nat) (k₁ : Nat)
    (rest : List ((Addr → Nat) × Nat)) (s : SeqState)
    (hcold : s a = none) (hpos : 0 < k₁) :
    (seqBatches a ((ch₁, k₁) :: rest) s).1 =
      List.range' (ch₁ a) (k₁ + totalCount rest) ∧
    (seqBatches a ((ch₁, k₁) :: rest) s).1.Nodup ∧
    (∀ (chain chain' : Addr → Nat) (t : SeqState) (b : Addr),
      (AllocateNonce chain' (AllocateNonce chain t b).2.1 b).1 =
        (AllocateNonce chain t b).1 + 1 ∧
      (AllocateNonce chain' (AllocateNonce chain t b).2.1 b).1 ≠
        (AllocateNonce chain t b).1) := by
  obtain ⟨j, rfl⟩ : ∃ j, k₁ = j + 1 := ⟨k₁ - 1, by omega⟩
  have hmain : (seqBatches a ((ch₁, j + 1) :: rest) s).1 =
      List.range' (ch₁ a) ((j + 1) + totalCount rest) := by
    have hb := batch_cold ch₁ a j s hcold
    have h₁ : updState s a (some ⟨ch₁ a, ch₁ a + (j + 1)⟩) a =
        some ⟨ch₁ a, ch₁ a + (j + 1)⟩ := updState_self ..
    have hw := seqBatches_warm a (ch₁ a) rest
      (updState s a (some ⟨ch₁ a, ch₁ a + (j + 1)⟩)) (ch₁ a + (j + 1)) h₁
    have happ := List.range'_append (ch₁ a) (j + 1) (totalCount rest) 1
    simp only [one_mul] at happ
    simp only [seqBatches, hb, hw]
    rw [happ]
    have hc : totalCount rest + (j + 1) = (j + 1) + totalCount rest := by
      omega
    rw [hc]
  refine ⟨hmain, ?_, ?_⟩
  · rw [hmain]
    exact List.nodup_range' _ _
  · intro chain chain' t b
    have h := alloc_succ chain chain' t b
    exact ⟨h, by omega⟩

/-- Witness for C2: two batches with different chain views, started cold at
pending nonce 5, return the contiguous block starting at 5. -/
theorem batch_sequence_contiguous_witness :
    (seqBatches 0 [((fun _ => 5), 2), ((fun _ => 9), 1)] initState).1 =
      List.range' 5 (2 + totalCount [((fun _ => 9), 1)]) ∧
    (seqBatches 0 [((fun _ => 5), 2), ((fun _ => 9), 1)] initState).1.Nodup := by
  have h := batch_sequence_contiguous 0 (fun _ => 5) 2 [((fun _ => 9), 1)]
    initState rfl (by decide)
  exact ⟨h.1, h.2.1⟩

/-- Claim C3: a submission failing with `SubmissionRejected` invalidates
the cached `nextNonce` for the address, and the next `AllocateNonce` call
performs a fresh chain pending-nonce query and returns the freshly queried
value rather than reusing cached local state. -/
theorem submitRejected_forces_fresh_query (chain : Addr → Nat)
    (s : SeqState) (a : Addr) (h : Nat) (rec : TxRecord) :
    (Submit false h s a rec).1 = SubmitOutcome.rejectedSub ∧
    (Submit false h s a rec).2.1 a = none ∧
    (AllocateNonce chain (Submit false h s a rec).2.1 a).2.2 = 1 ∧
    (AllocateNonce chain (Submit false h s a rec).2.1 a).1 = chain a := by
  have hstate : (Submit false h s a rec).2.1 a = none := by
    simp [Submit, ResetFromChain, updState_self]
  refine ⟨by simp [Submit], hstate, ?_, ?_⟩
  · rw [alloc_cold chain _ a hstate]
  · rw [alloc_cold chain _ a hstate]

/-- Claim C4: when confirmation polling finds a receipt whose status is
not success, the record transitions to `Failed` and the outcome is
`ExecutionReverted`, distinct from `ConfirmationTimeout` and from a
chain-query error; a success receipt transitions the record to `Confirmed`
and reports the receipt's block number, gas used and status code.  The
task02 receipt handling at lines 90-100 likewise sends a wait error, a
status-not-1 receipt and a success receipt down three distinct paths, the
last reporting block number and gas used. -/
theorem awaitConfirmation_reverted_distinct (t : Nat) (r : Receipt)
    (rest : List ReceiptResp) (rec : TxRecord) (hfail : r.status ≠ 1) :
    ((AwaitConfirmation rec (List.replicate t ReceiptResp.notFound ++
        ReceiptResp.found r :: rest)).1 = AwaitOutcome.executionReverted ∧
     (AwaitConfirmation rec (List.replicate t ReceiptResp.notFound ++
        ReceiptResp.found r :: rest)).2.1.status = TxStatus.Failed) ∧
    (∀ (r' : Receipt), r'.status = 1 →
      (AwaitConfirmation rec (List.replicate t ReceiptResp.notFound ++
         ReceiptResp.found r' :: rest)).1 =
        AwaitOutcome.confirmedRct r'.blockNumber r'.gasUsed r'.status ∧
      (AwaitConfirmation rec (List.replicate t ReceiptResp.notFound ++
         ReceiptResp.found r' :: rest)).2.1.status = TxStatus.Confirmed) ∧
    (AwaitOutcome.executionReverted ≠ AwaitOutcome.confirmationTimeout ∧
     AwaitOutcome.executionReverted ≠ AwaitOutcome.chainQueryError) ∧
    (classifyWaitMined (Except.ok r) = Task02Outcome.txFailed r.status ∧
     (∀ m, Task02Outcome.txFailed r.status ≠ Task02Outcome.waitError m) ∧
     (∀ bn gu, Task02Outcome.txFailed r.status ≠
        Task02Outcome.success bn gu) ∧
     (∀ (r' : Receipt), r'.status = 1 →
       classifyWaitMined (Except.ok r') =
         Task02Outcome.success r'.blockNumber r'.gasUsed)) := by
  refine ⟨?_, ?_, ⟨by decide, by decide⟩, ?_⟩
  · rw [await_replicate]
    exact ⟨by simp [AwaitConfirmation, hfail],
           by simp [AwaitConfirmation, hfail, setStatus]⟩
  · intro r' h1
    rw [await_replicate]
    exact ⟨by simp [AwaitConfirmation, h1],
           by simp [AwaitConfirmation, h1, setStatus]⟩
  · refine ⟨by simp [classifyWaitMined, hfail],
            fun m h => Task02Outcome.noConfusion h,
            fun bn gu h => Task02Outcome.noConfusion h,
            fun r' h1 => by simp [classifyWaitMined, h1]⟩

/-- Witness for C4: a status-0 receipt found after one empty poll yields
`ExecutionReverted` and a `Failed` record. -/
theorem awaitConfirmation_reverted_distinct_witness :
    (AwaitConfirmation ⟨5, 9, TxStatus.Submitted⟩
       (List.replicate 1 ReceiptResp.notFound ++
        ReceiptResp.found ⟨12, 300, 0⟩ :: [])).1 =
      AwaitOutcome.executionReverted ∧
    (AwaitConfirmation ⟨5, 9, TxStatus.Submitted⟩
       (List.replicate 1 ReceiptResp.notFound ++
        ReceiptResp.found ⟨12, 300, 0⟩ :: [])).2.1.status =
      TxStatus.Failed :=
  (awaitConfirmation_reverted_distinct 1 ⟨12, 300, 0⟩ []
    ⟨5, 9, TxStatus.Submitted⟩ (by decide)).1

/-- Claim C5: both flows query the chain id from the node and thread it
through the signing call, so every signed payload either flow produces is
bound to the queried chain id, and whenever a transaction is produced the
chain-id query is among the run's network calls — neither flow ever signs
without it. -/
theorem signing_chain_bound (e : Env) (o : Oracle) :
    (∀ tx, (task01Run e o).2 = some tx →
      tx.chainID = o.chainID ∧ RpcCall.networkID ∈ (task01Run e o).1) ∧
    (∀ tx, (task02Run e o).2.1 = some tx →
      tx.chainID = o.chainID ∧ RpcCall.networkID ∈ (task02Run e o).1) := by
  constructor
  · intro tx htx
    cases hcfg : resolveTask01Config e with
    | error m => simp [task01Run, hcfg] at htx
    | ok cfg =>
        simp only [task01Run, hcfg] at htx ⊢
        by_cases hb : o.balance < transferValue + o.gasPrice * transferGasLimit
        · simp [hb] at htx
        · simp only [hb, if_false] at htx ⊢
          simp only [Option.some.injEq] at htx
          subst htx
          exact ⟨rfl, by simp [task01Prefix]⟩
  · intro tx htx
    cases hcfg : resolveTask02Config e with
    | error m => simp [task02Run, hcfg] at htx
    | ok cfg =>
        simp only [task02Run, hcfg] at htx ⊢
        cases hcl : classifyWaitMined o.waitMined <;>
          simp only [hcl, Option.some.injEq] at htx ⊢ <;>
          subst htx <;>
          exact ⟨rfl, by simp [task02Prefix]⟩

/-- Witness for C5: a concrete task01 run produces a transaction signed
with the queried chain id 111. -/
theorem signing_chain_bound_witness :
    (task01Run ⟨"", "", "k", "r", "c"⟩
        ⟨100, 10000000000000000, 5, 2, 111, Except.ok ⟨1, 2, 1⟩, 0, 1⟩).2 =
      some (task01Tx ⟨defaultRPC, "k", "r"⟩
        ⟨100, 10000000000000000, 5, 2, 111, Except.ok ⟨1, 2, 1⟩, 0, 1⟩) ∧
    (task01Tx ⟨defaultRPC, "k", "r"⟩
        ⟨100, 10000000000000000, 5, 2, 111, Except.ok ⟨1, 2, 1⟩, 0, 1⟩).chainID =
      111 := by
  refine ⟨rfl, ?_⟩
  exact ((signing_chain_bound ⟨"", "", "k", "r", "c"⟩
    ⟨100, 10000000000000000, 5, 2, 111, Except.ok ⟨1, 2, 1⟩, 0, 1⟩).1 _ rfl).1

/-- Claim C6: in every reachable sequencer state, `nextNonce >=
confirmedNonce` holds for each tracked address — every sequencer operation
preserves the invariant — and the first allocation for an address with no
local state derives both fields from a single fresh chain pending-nonce
query: it returns the queried value and stores it as `confirmedNonce` with
`nextNonce` one past it. -/
theorem sequencer_nonce_invariant (s : SeqState) (hr : Reachable s) :
    NonceInvariant s ∧
    (∀ (chain : Addr → Nat) (a : Addr), s a = none →
      (AllocateNonce chain s a).1 = chain a ∧
      (AllocateNonce chain s a).2.2 = 1 ∧
      (AllocateNonce chain s a).2.1 a = some ⟨chain a, chain a + 1⟩) := by
  constructor
  · induction hr with
    | init =>
        intro a st h
        simp [initState] at h
    | step s' op hprev ih =>
        cases op with
        | allocate chain a => exact inv_alloc chain s' a ih
        | allocateBatch chain a count => exact inv_batch chain a count s' ih
        | submit ok h a rec => exact inv_submit ok h s' a rec ih
        | reset a => exact inv_reset s' a ih
  · intro chain a h
    refine ⟨?_, ?_, ?_⟩
    · rw [alloc_cold chain s a h]
    · rw [alloc_cold chain s a h]
    · rw [alloc_state_cold chain s a h, updState_self]

/-- Witness for C6: the invariant holds in the state reached by one
allocation from the initial state. -/
theorem sequencer_nonce_invariant_witness :
    NonceInvariant (applyOp initState (SeqOp.allocate (fun _ => 5) 0)) :=
  (sequencer_nonce_invariant (applyOp initState (SeqOp.allocate (fun _ => 5) 0))
    (Reachable.step initState (SeqOp.allocate (fun _ => 5) 0)
      Reachable.init)).1

/-- Claim C7: if confirmation polling is cancelled or its deadline elapses
(the observed poll responses run out) after submission, the outcome is
`ConfirmationTimeout`, the record is unchanged and remains `Submitted`;
polling only ever issues receipt queries for the record's hash — never a
rollback or a resubmission — and a task02 run submits at most one
transaction in total. -/
theorem cancelled_poll_keeps_submitted (rec : TxRecord)
    (polls : List ReceiptResp) (hsub : rec.status = TxStatus.Submitted) :
    ((AwaitConfirmation rec polls).1 = AwaitOutcome.confirmationTimeout →
      (AwaitConfirmation rec polls).2.1 = rec ∧
      (AwaitConfirmation rec polls).2.1.status = TxStatus.Submitted) ∧
    (∀ op ∈ (AwaitConfirmation rec polls).2.2,
      op = PollOp.receiptQuery rec.hash) ∧
    (∀ (e : Env) (o : Oracle),
      ((task02Run e o).1.filter isSendCall).length ≤ 1) := by
  refine ⟨?_, ?_, ?_⟩
  · induction polls with
    | nil => intro _; exact ⟨rfl, hsub⟩
    | cons resp rest ih =>
        cases resp with
        | found r =>
            intro h
            by_cases h1 : r.status = 1 <;> simp [AwaitConfirmation, h1] at h
        | notFound =>
            intro h
            simp only [AwaitConfirmation] at h ⊢
            exact ih h
        | queryError =>
            intro h
            simp [AwaitConfirmation] at h
  · induction polls with
    | nil =>
        intro op hop
        simp [AwaitConfirmation] at hop
    | cons resp rest ih =>
        intro op hop
        cases resp with
        | found r =>
            by_cases h1 : r.status = 1 <;>
              simp [AwaitConfirmation, h1] at hop <;> simp [hop]
        | notFound =>
            simp only [AwaitConfirmation, List.mem_cons] at hop
            rcases hop with h | h
            · exact h
            · exact ih op h
        | queryError =>
            simp [AwaitConfirmation] at hop
            simp [hop]
  · intro e o
    cases hcfg : resolveTask02Config e with
    | error m => simp [task02Run, hcfg]
    | ok cfg =>
        simp only [task02Run, hcfg]
        cases hcl : classifyWaitMined o.waitMined <;>
          simp [task02Prefix, isSendCall, List.filter_append, List.filter]

/-- Witness for C7: polling a submitted record through two empty responses
leaves the record unchanged. -/
theorem cancelled_poll_keeps_submitted_witness :
    (AwaitConfirmation ⟨5, 9, TxStatus.Submitted⟩
       [ReceiptResp.notFound, ReceiptResp.notFound]).2.1 =
      ⟨5, 9, TxStatus.Submitted⟩ :=
  ((cancelled_poll_keeps_submitted ⟨5, 9, TxStatus.Submitted⟩
    [ReceiptResp.notFound, ReceiptResp.notFound] rfl).1 rfl).1

/-- Claim C8: under the spec's per-account mutual-exclusion discipline, a
concurrent execution of two `AllocateNonce` calls for the same address is
one of the two sequential serializations, and in either serialization the
two calls return distinct nonces (the second is the successor of the
first). -/
theorem concurrent_alloc_distinct (chainA chainB : Addr → Nat)
    (s : SeqState) (a : Addr) (firstIsA : Bool) :
    (serializedPair chainA chainB s a firstIsA).1 ≠
      (serializedPair chainA chainB s a firstIsA).2 := by
  cases firstIsA with
  | true =>
      show (AllocateNonce chainA s a).1 ≠
        (AllocateNonce chainB (AllocateNonce chainA s a).2.1 a).1
      rw [alloc_succ chainA chainB s a]
      omega
  | false =>
      show (AllocateNonce chainA (AllocateNonce chainB s a).2.1 a).1 ≠
        (AllocateNonce chainB s a).1
      rw [alloc_succ chainB chainA s a]
      omega

/-- An empty required variable makes task01's env resolution fail. -/
theorem resolveTask01_error_of_empty (e : Env)
    (h : e.privateKey = "" ∨ e.recipientAddr = "") :
    ∃ m, resolveTask01Config e = Except.error m := by
  by_cases h1 : e.privateKey = ""
  · exact ⟨"PRIVATE_KEY environment variable is required",
      by simp [resolveTask01Config, h1]⟩
  · have h2 : e.recipientAddr = "" := by tauto
    exact ⟨"RECIPIENT_ADDR environment variable is required",
      by simp [resolveTask01Config, h1, h2]⟩

/-- An empty required variable makes task02's env resolution fail. -/
theorem resolveTask02_error_of_empty (e : Env)
    (h : e.privateKey = "" ∨ e.recipientAddr = "" ∨ e.contractAddr = "") :
    ∃ m, resolveTask02Config e = Except.error m := by
  by_cases h1 : e.privateKey = ""
  · exact ⟨"PRIVATE_KEY environment variable is required",
      by simp [resolveTask02Config, h1]⟩
  · by_cases h2 : e.recipientAddr = ""
    · exact ⟨"RECIPIENT_ADDR environment variable is required",
      by simp [resolveTask02Config, h1, h2]⟩
    · have h3 : e.contractAddr = "" := by tauto
      exact ⟨"CONTRACT_ADDR environment variable is required",
        by simp [resolveTask02Config, h1, h2, h3]⟩

/-- Claim C9: an empty RPC-endpoint variable (`SEPOLIA_RPC` for the
transfer flow, `RPC_URL` for the contract flow) is silently replaced by the
hardcoded default Alchemy Sepolia endpoint and the run proceeds to dial it,
while an empty `PRIVATE_KEY`, `RECIPIENT_ADDR` or `CONTRACT_ADDR`
terminates the flow before any network call is issued. -/
theorem env_defaults_and_required_vars (e : Env) (o : Oracle) :
    (e.sepoliaRPC = "" → e.privateKey ≠ "" → e.recipientAddr ≠ "" →
      resolveTask01Config e =
        Except.ok ⟨defaultRPC, e.privateKey, e.recipientAddr⟩ ∧
      RpcCall.dial defaultRPC ∈ (task01Run e o).1) ∧
    (e.rpcURL = "" → e.privateKey ≠ "" → e.recipientAddr ≠ "" →
      e.contractAddr ≠ "" →
      resolveTask02Config e =
        Except.ok ⟨defaultRPC, e.privateKey, e.recipientAddr,
          e.contractAddr⟩ ∧
      RpcCall.dial defaultRPC ∈ (task02Run e o).1) ∧
    ((e.privateKey = "" ∨ e.recipientAddr = "") →
      (task01Run e o).1 = []) ∧
    ((e.privateKey = "" ∨ e.recipientAddr = "" ∨ e.contractAddr = "") →
      (task02Run e o).1 = [] ∧
      ∃ m, (task02Run e o).2.2 = Task02Outcome.configError m) := by
  refine ⟨?_, ?_, ?_, ?_⟩
  · intro h1 h2 h3
    have hcfg : resolveTask01Config e =
        Except.ok ⟨defaultRPC, e.privateKey, e.recipientAddr⟩ := by
      simp [resolveTask01Config, h1, h2, h3]
    refine ⟨hcfg, ?_⟩
    simp only [task01Run, hcfg]
    split <;> simp [task01Prefix]
  · intro h1 h2 h3 h4
    have hcfg : resolveTask02Config e =
        Except.ok ⟨defaultRPC, e.privateKey, e.recipientAddr,
          e.contractAddr⟩ := by
      simp [resolveTask02Config, h1, h2, h3, h4]
    refine ⟨hcfg, ?_⟩
    simp only [task02Run, hcfg]
    cases classifyWaitMined o.waitMined <;> simp [task02Prefix]
  · intro h
    obtain ⟨m, hm⟩ := resolveTask01_error_of_empty e h
    simp [task01Run, hm]
  · intro h
    obtain ⟨m, hm⟩ := resolveTask02_error_of_empty e h
    exact ⟨by simp [task02Run, hm], ⟨m, by simp [task02Run, hm]⟩⟩

/-- Witness for C9: with both RPC variables empty and the other variables
set, task01 dials the default endpoint; with the required variables empty,
neither flow issues any network call. -/
theorem env_defaults_and_required_vars_witness :
    RpcCall.dial defaultRPC ∈
      (task01Run ⟨"", "", "k", "r", "c"⟩
        ⟨100, 10000000000000000, 5, 2, 111, Except.ok ⟨1, 2, 1⟩, 0, 1⟩).1 ∧
    (task01Run ⟨"x", "y", "", "", ""⟩
        ⟨100, 10000000000000000, 5, 2, 111, Except.ok ⟨1, 2, 1⟩, 0, 1⟩).1 =
      [] ∧
    (task02Run ⟨"x", "y", "", "", ""⟩
        ⟨100, 10000000000000000, 5, 2, 111, Except.ok ⟨1, 2, 1⟩, 0, 1⟩).1 =
      [] := by
  refine ⟨?_, ?_, ?_⟩
  · exact ((env_defaults_and_required_vars ⟨"", "", "k", "r", "c"⟩
      ⟨100, 10000000000000000, 5, 2, 111, Except.ok ⟨1, 2, 1⟩, 0, 1⟩).1
        rfl (by decide) (by decide)).2
  · exact (env_defaults_and_required_vars ⟨"x", "y", "", "", ""⟩
      ⟨100, 10000000000000000, 5, 2, 111, Except.ok ⟨1, 2, 1⟩, 0, 1⟩).2.2.1
        (Or.inl rfl)
  · exact ((env_defaults_and_required_vars ⟨"x", "y", "", "", ""⟩
      ⟨100, 10000000000000000, 5, 2, 111, Except.ok ⟨1, 2, 1⟩, 0, 1⟩).2.2.2
        (Or.inl rfl)).1

end GoEthDemo
